import Mathlib

/-!
Shallow embedding of the Session & Streaming Transport Layer of the Klyra
dashboard frontend: the `ApiClient` class (`request`, `refreshToken`,
`sendMessage`, `uploadDocument`, `downloadDocument`) and the chat page's
`handleSendMessage` callbacks, plus the `ChatMessage` component's
`cleanSources` deduplication.

Asynchronous JavaScript is modelled by explicit environments (the responses
the network delivers) and, for the concurrent refresh deduplication, by a
small-step interleaved state machine whose suspension points are exactly the
`await`s of the source.
-/

namespace Klyra

/-! JavaScript string primitives, modelled on the character list of the
string so that every operation is structurally recursive. -/

/-- The operation `String.prototype.split(sep)` for a one-character separator: split into
the (possibly empty) segments between separator occurrences; splitting the
empty string yields `[""]`. -/
def splitChars (sep : Char) : List Char → List (List Char)
  | [] => [[]]
  | c :: rest =>
    let r := splitChars sep rest
    if c = sep then [] :: r
    else
      match r with
      | [] => [[c]]
      | h :: t => (c :: h) :: t

/-- The split `chunk.split("\n")`. -/
def jsSplitNewline (s : String) : List String :=
  (splitChars '\n' s.data).map String.mk

/-- The test `s.startsWith(p)`. -/
def jsStartsWith (p s : String) : Bool := p.data.isPrefixOf s.data

/-- The slice `s.slice(n)` for a nonnegative index. -/
def jsSlice (n : Nat) (s : String) : String := String.mk (s.data.drop n)

/-- The lowering `s.toLowerCase()` (ASCII, which covers every label in scope). -/
def jsToLower (s : String) : String := String.mk (s.data.map Char.toLower)

/-- The trim `s.trim()`: strip leading and trailing whitespace. -/
def jsTrim (s : String) : String :=
  String.mk ((s.data.dropWhile Char.isWhitespace).reverse.dropWhile
    Char.isWhitespace).reverse

/-- JavaScript truthiness of an optional string field: an absent field and
the empty string are falsy, every other string is truthy. -/
def truthy : Option String → Bool
  | none => false
  | some s => s ≠ ""

/-- JavaScript `a || b` where `a` is an optional string field and `b` a
string: yields `b` when `a` is absent or empty. -/
def jsOr (a : Option String) (b : String) : String :=
  match a with
  | some s => if s = "" then b else s
  | none => b

/-! ## Stream wire events and callbacks (`ApiClient.sendMessage`) -/

/-- RAG confidence metadata carried by a `done` event (passed through to the
`onComplete` callback; the chat page ignores it). -/
structure RagConfidence where
  confidence_level : String
  used_general_knowledge : Option Bool := none
  doc_count : Option Nat := none
deriving Repr, DecidableEq

/-- The fields of a parsed `data:`-line JSON payload that `sendMessage`
inspects: `data.token`, `data.done`, `data.sources`, `data.user_message_id`,
`data.assistant_message_id`, `data.error`, `data.confidence`. -/
structure EventData where
  token : Option String := none
  done : Bool := false
  sources : Option (List String) := none
  user_message_id : Option String := none
  assistant_message_id : Option String := none
  error : Option String := none
  confidence : Option RagConfidence := none
deriving Repr, DecidableEq

/-- A callback invocation made by `sendMessage`: `onToken`, `onComplete` or
`onError`, with the arguments the source passes. -/
inductive CB
  | tok (s : String)
  | complete (sources : List String) (userMsgId assistantMsgId : Option String)
      (conf : Option RagConfidence)
  | err (msg : String)
deriving Repr, DecidableEq

/-- Whether a callback is a terminal one (`onComplete` or `onError`). -/
def CB.isTerminal : CB → Bool
  | .tok _ => false
  | _ => true

/-- The body of `sendMessage`'s line loop: a line starting with `"data: "`
has its JSON payload parsed (`JSON.parse` modelled by the `jsonParse`
argument, `none` = parse error, ignored); truthy `token`, `done` and `error`
fields each trigger their callback, in that order. -/
def processLine (jsonParse : String → Option EventData) (line : String) : List CB :=
  if jsStartsWith "data: " line then
    match jsonParse (jsSlice 6 line) with
    | none => []
    | some data =>
        (if truthy data.token then [CB.tok (data.token.getD "")] else []) ++
        (if data.done then
            [CB.complete (data.sources.getD []) data.user_message_id
              data.assistant_message_id data.confidence] else []) ++
        (if truthy data.error then [CB.err (data.error.getD "")] else [])
  else []

/-- The read loop of `sendMessage`: each decoded chunk is split on `"\n"`
independently (the source keeps no carry-over buffer between reads) and every
line is processed; the loop runs until the reader reports done. -/
def processChunks (jsonParse : String → Option EventData)
    (chunks : List String) : List CB :=
  (chunks.map fun chunk =>
    ((jsSplitNewline chunk).map (processLine jsonParse)).flatten).flatten

/-- The network environment of one `sendMessage` call: whether the initial
`fetch` rejects, the response status (`ok`), the `error.detail` value decoded
from a non-ok body, whether `response.body` yields a reader, the decoded text
chunks the reader delivers, and whether the read after the last chunk rejects
instead of reporting done. -/
structure SendEnv where
  fetchThrows : Bool := false
  responseOk : Bool := true
  errorDetail : String := "Failed to send message"
  hasReader : Bool := true
  chunks : List String := []
  readThrows : Bool := false
deriving Repr, DecidableEq

/-- The method `ApiClient.sendMessage`: returns the list of callback invocations in
order, paired with whether the call rejected (threw) instead of resolving. -/
def sendMessage (jsonParse : String → Option EventData) (env : SendEnv) :
    List CB × Bool :=
  if env.fetchThrows then ([], true)
  else if !env.responseOk then ([CB.err env.errorDetail], false)
  else if !env.hasReader then ([CB.err "No response stream"], false)
  else (processChunks jsonParse env.chunks, env.readThrows)

/-! ## Chat page view model (`handleSendMessage` in `chat/page.tsx`) -/

/-- The chat page's `LocalMessage` view-model entry. -/
structure LocalMessage where
  id : String
  role : String
  content : String
  sources : Option (List String)
  isStreaming : Bool := false
deriving Repr, DecidableEq

/-- The page state touched by `handleSendMessage`: the message list and the
`isSending` flag that disables the input surface. -/
structure ChatState where
  messages : List LocalMessage
  isSending : Bool
deriving Repr, DecidableEq

/-- The `onToken` callback: append the token to the entry whose id is the
assistant placeholder's (temporary) id. -/
def onTokenUpdate (assistantMessageId token : String)
    (prev : List LocalMessage) : List LocalMessage :=
  prev.map fun m =>
    if m.id = assistantMessageId then { m with content := m.content ++ token } else m

/-- The `onComplete` callback's `setMessages` updater: one map over the list
that swaps the assistant entry's id for `assistantMsgId || m.id`, stores the
sources and clears `isStreaming`, and swaps the user entry's id when
`userMsgId` is truthy. -/
def onCompleteUpdate (userMessageId assistantMessageId : String)
    (sources : List String) (userMsgId assistantMsgId : Option String)
    (prev : List LocalMessage) : List LocalMessage :=
  prev.map fun m =>
    if m.id = assistantMessageId then
      { m with id := jsOr assistantMsgId m.id, sources := some sources,
               isStreaming := false }
    else if m.id = userMessageId ∧ truthy userMsgId then
      { m with id := (userMsgId.getD m.id) }
    else m

/-- The `onError` callback's updater: replace the assistant placeholder's
content with the fixed apology string and clear `isStreaming`; ids are left
as they are. -/
def onErrorUpdate (assistantMessageId : String)
    (prev : List LocalMessage) : List LocalMessage :=
  prev.map fun m =>
    if m.id = assistantMessageId then
      { m with content := "Sorry, an error occurred. Please try again.",
               isStreaming := false }
    else m

/-- Apply one callback invocation to the page state: `onComplete` and
`onError` additionally run `setIsSending(false)`. -/
def applyCB (userMessageId assistantMessageId : String) (s : ChatState) :
    CB → ChatState
  | .tok t =>
      { s with messages := onTokenUpdate assistantMessageId t s.messages }
  | .complete sources uId aId _ =>
      { messages := onCompleteUpdate userMessageId assistantMessageId
          sources uId aId s.messages,
        isSending := false }
  | .err _ =>
      { messages := onErrorUpdate assistantMessageId s.messages,
        isSending := false }

/-- The temporary user id, from `Date.now()`. -/
def tempUserId (now : Nat) : String := "temp-user-" ++ toString now

/-- The temporary assistant id, from `Date.now()`. -/
def tempAssistantId (now : Nat) : String := "temp-assistant-" ++ toString now

/-- The optimistic synchronous insert at the top of `handleSendMessage`:
append the settled user message and the streaming assistant placeholder,
with `isSending` already set. -/
def initTurnState (prev : List LocalMessage) (content : String) (now : Nat) :
    ChatState :=
  { messages := prev ++
      [ { id := tempUserId now, role := "user", content := content,
          sources := none },
        { id := tempAssistantId now, role := "assistant", content := "",
          sources := none, isStreaming := true } ],
    isSending := true }

/-- The handler `handleSendMessage` for a submitted turn: optimistic insert, then the
callbacks `sendMessage` delivers are applied in order; if `sendMessage`
rejects, the `catch` block runs `setIsSending(false)`. -/
def handleSendMessage (jsonParse : String → Option EventData) (env : SendEnv)
    (prev : List LocalMessage) (content : String) (now : Nat) : ChatState :=
  let s0 := initTurnState prev content now
  let r := sendMessage jsonParse env
  let s1 := r.1.foldl (applyCB (tempUserId now) (tempAssistantId now)) s0
  if r.2 then { s1 with isSending := false } else s1

/-- Fold a list of callback invocations over the page state, in order. The
intermediate states of this fold (over every prefix of the list) are exactly
the observable view-model states of the turn: the source performs one
`setMessages`/`setIsSending` batch per callback. -/
def foldCBs (userMessageId assistantMessageId : String) (s : ChatState)
    (cbs : List CB) : ChatState :=
  cbs.foldl (applyCB userMessageId assistantMessageId) s

/-- The id of the entry at a position of the message list. The turn's user
entry sits at index `prev.length` and its assistant entry at index
`prev.length + 1`; every updater is a `map`, so positions are stable. -/
def entryId (s : ChatState) (i : Nat) : Option String :=
  (s.messages[i]?).map (·.id)

/-- The content of the entry at a position of the message list. -/
def entryContent (s : ChatState) (i : Nat) : Option String :=
  (s.messages[i]?).map (·.content)

/-- The streaming flag of the entry at a position of the message list. -/
def entryStreaming (s : ChatState) (i : Nat) : Option Bool :=
  (s.messages[i]?).map (·.isStreaming)

/-- The sources of the entry at a position of the message list. -/
def entrySources (s : ChatState) (i : Nat) : Option (Option (List String)) :=
  (s.messages[i]?).map (·.sources)

/-- In-order concatenation of a list of token texts. -/
def concatTokens : List String → String
  | [] => ""
  | t :: ts => t ++ concatTokens ts

/-- Condition on a callback under which the claim about the identifier swap
speaks: every `onComplete` invocation carries both permanent ids (truthy,
i.e. present and nonempty) and the permanent ids are fresh (distinct from
the two temporary ids). -/
def GoodComplete (userMessageId assistantMessageId : String) : CB → Prop
  | .complete _ uId aId _ =>
      truthy uId = true ∧ truthy aId = true ∧
      uId.getD "" ≠ userMessageId ∧ uId.getD "" ≠ assistantMessageId ∧
      aId.getD "" ≠ userMessageId ∧ aId.getD "" ≠ assistantMessageId
  | _ => True

/-- Both entries of the turn still carry their temporary ids. -/
def TempIds (p : Nat) (u a : String) (s : ChatState) : Prop :=
  entryId s p = some u ∧ entryId s (p + 1) = some a

/-- Both entries of the turn carry ids distinct from both temporary ids
(the state after the atomic swap). -/
def FreshIds (p : Nat) (u a : String) (s : ChatState) : Prop :=
  (∃ x, entryId s p = some x ∧ x ≠ u ∧ x ≠ a) ∧
  (∃ y, entryId s (p + 1) = some y ∧ y ≠ u ∧ y ≠ a)

/-! ## Source deduplication (`cleanSources` in `ChatMessage.tsx`) -/

/-- The stateful filter inside `cleanSources`: the `seen` set holds the
normalizations (`source.toLowerCase().trim()`) already kept; a source whose
normalization was seen is dropped, otherwise it is kept verbatim and its
normalization recorded. -/
def dedupeFilter (seen : List String) : List String → List String
  | [] => []
  | source :: rest =>
    let normalized := jsTrim (jsToLower source)
    if normalized ∈ seen then dedupeFilter seen rest
    else source :: dedupeFilter (normalized :: seen) rest

/-- The memo `cleanSources`: `[]` when `sources` is null or empty, otherwise the
deduplicating filter with an empty seen set. -/
def cleanSources (sources : Option (List String)) : List String :=
  match sources with
  | none => []
  | some ss => if ss.length = 0 then [] else dedupeFilter [] ss

/-- Keep the first occurrence of each `key`-equivalence class, in order,
first-seen representative winning. Used to compare `cleanSources` against
the deduplication rule the specification states. -/
def firstWins (key : String → String) : List String → List String
  | [] => []
  | s :: rest => s :: firstWins key (rest.filter fun t => key t ≠ key s)
termination_by l => l.length
decreasing_by
  exact Nat.lt_succ_of_le (List.length_filter_le _ _)

/-- Helper for the specification's rule: the seen set holds the lowercased
labels already kept. -/
def specCleanSourcesAux (seen : List String) : List String → List String
  | [] => []
  | s :: rest =>
    if jsToLower s ∈ seen then specCleanSourcesAux seen rest
    else s :: specCleanSourcesAux (jsToLower s :: seen) rest

/-- The deduplication rule exactly as the specification words it: keep the
first occurrence of each case-insensitively-equal label, first-seen casing
winning (no trimming). -/
def specCleanSources (sources : List String) : List String :=
  specCleanSourcesAux [] sources

/-! ## Request gateway (`ApiClient.request`) -/

/-- One backend HTTP response as `request` inspects it: the status code and
the `detail` field of the decoded error body (`none` when the body is not
parseable, in which case the source substitutes a generic object). -/
structure HttpResponse where
  status : Nat
  detail : Option String
deriving Repr, DecidableEq

/-- The environment of one `request` call chain: the stored token, the
response the endpoint returns per attempt (0 = the original request, 1 =
the retry), and whether `refreshToken()` succeeds. -/
structure RequestEnv where
  token : Option String
  responses : Nat → HttpResponse
  refreshOk : Bool

/-- What a `request` call chain returns or throws. -/
inductive ReqOutcome
  | ok
  | thrown (msg : String)
deriving Repr, DecidableEq

/-- Observable effect summary of a `request` call chain: outcome, how many
times the endpoint was fetched, how many refresh network calls were issued,
whether the session was purged (with redirect to login). -/
structure RequestResult where
  outcome : ReqOutcome
  attempts : Nat
  refreshCalls : Nat
  purged : Bool
deriving Repr, DecidableEq

/-- The Authorization header `request` attaches to a fetch: present exactly
when a token exists. -/
def requestAuthHeader (token : Option String) : Option String :=
  match token with
  | some t => some ("Bearer " ++ t)
  | none => none

/-- The method `ApiClient.request` for a single (sequential) caller. A 401 on a
non-retry call with a token present triggers one `refreshToken()` network
call; on success the request is re-issued once with `isRetry = true`; on
failure the session is purged and control falls through to the non-ok check,
which throws `error.detail || "An error occurred"`. Any other non-2xx status
throws the same way; a 2xx resolves with the decoded body. -/
def requestRun (env : RequestEnv) (isRetry : Bool) : RequestResult :=
  let resp := env.responses (cond isRetry 1 0)
  if h : resp.status = 401 ∧ isRetry = false ∧ env.token.isSome then
    if env.refreshOk then
      let r := requestRun env true
      { r with attempts := r.attempts + 1, refreshCalls := r.refreshCalls + 1 }
    else
      { outcome := .thrown (jsOr resp.detail "An error occurred"),
        attempts := 1, refreshCalls := 1, purged := true }
  else if ¬ (200 ≤ resp.status ∧ resp.status < 300) then
    { outcome := .thrown (jsOr resp.detail "An error occurred"),
      attempts := 1, refreshCalls := 0, purged := false }
  else
    { outcome := .ok, attempts := 1, refreshCalls := 0, purged := false }
termination_by cond isRetry 0 1
decreasing_by
  rw [h.2.1]
  decide

/-! ## Binary and multipart variants
(`ApiClient.uploadDocument`, `ApiClient.downloadDocument`) -/

/-- The JavaScript template literal `` `Bearer ${token}` ``: a null token
interpolates as the string `"null"`. -/
def bearerTemplate (token : Option String) : String :=
  "Bearer " ++ (match token with | some t => t | none => "null")

/-- The environment of one binary call: the stored token and the single
response the endpoint returns. -/
structure BinaryEnv where
  token : Option String
  response : HttpResponse
deriving Repr

/-- Observable effect summary of a binary call: the Authorization header
attached to its fetch, the outcome, the endpoint fetch count, and the
refresh network calls issued. -/
structure BinaryResult where
  authHeader : Option String
  outcome : ReqOutcome
  attempts : Nat
  refreshCalls : Nat
deriving Repr, DecidableEq

/-- The method `ApiClient.uploadDocument`: one fetch with the Authorization header set
unconditionally from the template literal; a non-2xx response throws
`error.detail` (or the generic fallback when the body is unparseable) with
no refresh and no retry. -/
def uploadDocument (env : BinaryEnv) : BinaryResult :=
  let auth := some (bearerTemplate env.token)
  if ¬ (200 ≤ env.response.status ∧ env.response.status < 300) then
    { authHeader := auth,
      outcome := .thrown (env.response.detail.getD "Failed to upload document"),
      attempts := 1, refreshCalls := 0 }
  else
    { authHeader := auth, outcome := .ok, attempts := 1, refreshCalls := 0 }

/-- The method `ApiClient.downloadDocument`: same shape as `uploadDocument` with the
download fallback message, resolving with the blob on a 2xx. -/
def downloadDocument (env : BinaryEnv) : BinaryResult :=
  let auth := some (bearerTemplate env.token)
  if ¬ (200 ≤ env.response.status ∧ env.response.status < 300) then
    { authHeader := auth,
      outcome := .thrown (env.response.detail.getD "Failed to download document"),
      attempts := 1, refreshCalls := 0 }
  else
    { authHeader := auth, outcome := .ok, attempts := 1, refreshCalls := 0 }

/-! ## Single-flight refresh (`request`'s 401 deduplication, interleaved)

The cooperative interleaving of N `request` callers that have each received
a 401 with a token present. Each caller runs the deduplication block: the
check-and-start slice (synchronous: test `isRefreshing`, possibly start
`refreshToken()` and store `refreshPromise`, then capture the promise it
will await) is one atomic step (`observe`); the network completion of a
refresh call is a `settle` step; a caller's continuation after its `await`
(clear `isRefreshing` and `refreshPromise`, then branch on the outcome) is
a `resume` step. -/

/-- Program counter of one caller inside the 401-handling block. -/
inductive CallerPC
  | at401
  | waiting (p : Nat)
  | finished (b : Bool)
deriving Repr, DecidableEq

/-- Whether a caller has finished the block (branched on the shared refresh
outcome: `true` = it retries its original request, `false` = it fails with
the session purged). -/
def CallerPC.isFinished : CallerPC → Bool
  | .finished _ => true
  | _ => false

/-- Shared state of the interleaved system: the `ApiClient` fields
`isRefreshing` and `refreshPromise`, the pool of created refresh promises
(`none` = still pending), the count of refresh network calls issued, and
each caller's program counter. -/
structure RefreshSys where
  isRefreshing : Bool
  refreshPromise : Option Nat
  promises : List (Option Bool)
  refreshCalls : Nat
  callers : List CallerPC
deriving Repr, DecidableEq

/-- Scheduler events: a caller's check-and-start slice, a refresh call's
network completion, a caller's post-await continuation. -/
inductive RefreshEv
  | observe (i : Nat)
  | settle (p : Nat) (b : Bool)
  | resume (i : Nat)
deriving Repr, DecidableEq

/-- Whether an event is a caller's check-and-start slice. -/
def RefreshEv.isObserve : RefreshEv → Bool
  | .observe _ => true
  | _ => false

/-- One interleaving step; `none` when the event is not enabled. -/
def refreshStep (s : RefreshSys) : RefreshEv → Option RefreshSys
  | .observe i =>
    match s.callers[i]? with
    | some .at401 =>
      if s.isRefreshing then
        match s.refreshPromise with
        | some p => some { s with callers := s.callers.set i (.waiting p) }
        | none =>
            some { s with isRefreshing := false,
                          callers := s.callers.set i (.finished false) }
      else
        some { s with
          isRefreshing := true,
          refreshPromise := some s.promises.length,
          promises := s.promises ++ [none],
          refreshCalls := s.refreshCalls + 1,
          callers := s.callers.set i (.waiting s.promises.length) }
    | _ => none
  | .settle p b =>
    match s.promises[p]? with
    | some none => some { s with promises := s.promises.set p (some b) }
    | _ => none
  | .resume i =>
    match s.callers[i]? with
    | some (.waiting p) =>
      match s.promises[p]? with
      | some (some b) =>
          some { s with isRefreshing := false, refreshPromise := none,
                        callers := s.callers.set i (.finished b) }
      | _ => none
    | _ => none

/-- Run a whole schedule of events. -/
def runRefresh (s : RefreshSys) : List RefreshEv → Option RefreshSys
  | [] => some s
  | e :: evs =>
    match refreshStep s e with
    | none => none
    | some s' => runRefresh s' evs

/-- Initial state: no refresh outstanding, N callers each about to run the
401-handling block. -/
def initRefresh (n : Nat) : RefreshSys :=
  { isRefreshing := false, refreshPromise := none, promises := [],
    refreshCalls := 0, callers := List.replicate n .at401 }

/-- Invariant after one or more check-and-start slices have run and before
the refresh outcome arrives: exactly one refresh call has been issued, its
promise (id 0) is still pending and stored in `refreshPromise`, and every
caller is still at the start of the block or awaiting promise 0. -/
def RefreshPhase1 (n : Nat) (s : RefreshSys) : Prop :=
  s.isRefreshing = true ∧ s.refreshPromise = some 0 ∧
  s.promises = [none] ∧ s.refreshCalls = 1 ∧ s.callers.length = n ∧
  ∀ c ∈ s.callers, c = CallerPC.at401 ∨ c = CallerPC.waiting 0

/-- Invariant through the settle/resume phase: still exactly one refresh
call; either its promise is pending and no caller has finished, or it has
settled with outcome `b` and every finished caller branched on that same
`b`. -/
def RefreshPhase2 (n : Nat) (s : RefreshSys) : Prop :=
  s.refreshCalls = 1 ∧ s.callers.length = n ∧
  ((s.promises = [none] ∧
      ∀ c ∈ s.callers, c = CallerPC.at401 ∨ c = CallerPC.waiting 0) ∨
   (∃ b, s.promises = [some b] ∧
      ∀ c ∈ s.callers, c = CallerPC.at401 ∨ c = CallerPC.waiting 0 ∨
        c = CallerPC.finished b))

/-- The final state of the concrete two-caller schedule used as witness. -/
def refreshSysW : RefreshSys :=
  { isRefreshing := false, refreshPromise := none, promises := [some true],
    refreshCalls := 1, callers := [.finished true, .finished true] }

/-! ## Concrete inputs used by witnesses and counterexamples -/

/-- The behaviour of `JSON.parse` on the payloads the concrete streams below
exercise (every other string — in particular each fragment of an event line
split across two reads — is not valid JSON and fails to parse). -/
def jsonParse0 (s : String) : Option EventData :=
  if s = "\x7b\x22error\x22: \x22boom\x22\x7d" then some { error := some "boom" }
  else if s = "\x7b\x22token\x22: \x22late\x22\x7d" then some { token := some "late" }
  else if s = "\x7b\x22token\x22: \x22hi\x22\x7d" then some { token := some "hi" }
  else if s = "\x7b\x22done\x22: true\x7d" then some { done := true }
  else if s = "\x7b\x22done\x22: true, \x22user_message_id\x22: \x22u1\x22, \x22assistant_message_id\x22: \x22a1\x22\x7d" then
    some { done := true, user_message_id := some "u1",
           assistant_message_id := some "a1" }
  else none

/-- A stream whose single chunk carries an error event line followed by a
token event line. -/
def streamErrThenTok : SendEnv :=
  { chunks :=
      ["data: \x7b\x22error\x22: \x22boom\x22\x7d\ndata: \x7b\x22token\x22: \x22late\x22\x7d\n"] }

/-- The event line carrying the token `"hi"`, split across two reads. -/
def streamSplitLine : SendEnv :=
  { chunks := ["data: \x7b\x22tok", "en\x22: \x22hi\x22\x7d\n"] }

/-- The same event line delivered whole in one read. -/
def streamWholeLine : SendEnv :=
  { chunks := ["data: \x7b\x22token\x22: \x22hi\x22\x7d\n"] }

/-- A chunk carrying a good token line, then a malformed event line, then a
good done line. -/
def chunkWithBadLine : String :=
  "data: \x7b\x22token\x22: \x22hi\x22\x7d\ndata: \x7b\x22tok\ndata: \x7b\x22done\x22: true\x7d\n"

/-- An OK response whose stream ends without any terminal event. -/
def streamNoTerminal : SendEnv := { chunks := [] }

/-- A stream delivering only a done event. -/
def streamDoneOnly : SendEnv := { chunks := ["data: \x7b\x22done\x22: true\x7d\n"] }

/-- A stream delivering one done event that carries both permanent ids. -/
def streamDoneIds : SendEnv :=
  { chunks :=
      ["data: \x7b\x22done\x22: true, \x22user_message_id\x22: \x22u1\x22, \x22assistant_message_id\x22: \x22a1\x22\x7d\n"] }

/-- A backend that answers 401 with detail `"expired"` to every attempt. -/
def resp401 : Nat → HttpResponse := fun _ => ⟨401, some "expired"⟩

/-- A request environment with a stored token whose refresh succeeds but
whose endpoint keeps rejecting with 401. -/
def req401Env : RequestEnv :=
  { token := some "tok1", responses := resp401, refreshOk := true }

/-- A binary-call environment with no stored token and a 2xx response. -/
def binEnvNoToken : BinaryEnv :=
  { token := none, response := ⟨200, none⟩ }

/-- A binary-call environment with a stored token and a 401 response. -/
def binEnv401 : BinaryEnv :=
  { token := some "tok1", response := ⟨401, some "expired"⟩ }

/-! # Theorems

Shared lemmas first, then one theorem per claim (with its witness or
counterexample where called for). -/

/-- The deduplicating filter with a seen set equals first-occurrence-wins on
the elements whose normalization is not already seen. -/
theorem dedupeFilter_eq_firstWins (seen : List String) (ss : List String) :
    dedupeFilter seen ss =
      firstWins (fun s => jsTrim (jsToLower s))
        (ss.filter fun s => jsTrim (jsToLower s) ∉ seen) := by
  induction ss generalizing seen with
  | nil =>
    rw [firstWins.eq_def]
    simp [dedupeFilter]
  | cons s rest ih =>
    by_cases h : jsTrim (jsToLower s) ∈ seen
    · simp only [dedupeFilter, List.filter_cons, h, ite_true]
      simpa [h] using ih seen
    · simp only [dedupeFilter, List.filter_cons, h, ite_false]
      simp only [h, not_false_eq_true, decide_eq_true_eq, ite_true]
      rw [firstWins.eq_def]
      simp only []
      rw [ih (jsTrim (jsToLower s) :: seen)]
      rw [List.filter_filter]
      congr 1
      refine congrArg (firstWins fun s => jsTrim (jsToLower s))
        (List.filter_congr ?_)
      intro t _
      by_cases h1 : jsTrim (jsToLower t) = jsTrim (jsToLower s) <;>
        by_cases h2 : jsTrim (jsToLower t) ∈ seen <;>
          simp [h1, h2, List.mem_cons]

/-- C9 counterexample: the labels `"Doc A"` and `" doc a "` are distinct
under case-insensitive comparison (they differ by surrounding whitespace),
so the claimed rule keeps both; `cleanSources` normalizes with
`toLowerCase().trim()` and keeps only the first. -/
theorem c9_counterexample :
    cleanSources (some ["Doc A", " doc a "]) = ["Doc A"] ∧
    specCleanSources ["Doc A", " doc a "] = ["Doc A", " doc a "] ∧
    cleanSources (some ["Doc A", " doc a "]) ≠
      specCleanSources ["Doc A", " doc a "] := by
  decide

/-- C9 (amended): the displayed sources keep the first occurrence of each
label equivalence class under lowercasing-then-trimming, in original order
with the first-seen casing winning; in particular the spec's example
`["Doc A", "doc a", "Doc B"]` collapses to `["Doc A", "Doc B"]`. -/
theorem c9_source_dedup (ss : List String) :
    cleanSources (some ss) = firstWins (fun s => jsTrim (jsToLower s)) ss ∧
    cleanSources (some ["Doc A", "doc a", "Doc B"]) = ["Doc A", "Doc B"] := by
  constructor
  · rcases ss with _ | ⟨s, rest⟩
    · simp [cleanSources, firstWins]
    · rw [cleanSources]
      simp only [List.length_cons, Nat.succ_ne_zero, if_false]
      rw [dedupeFilter_eq_firstWins]
      congr 1
      simp
  · decide

/-- A single processed line never produces an `onToken` call with the empty
string: the truthiness guard `if (data.token)` skips absent and empty token
fields. -/
theorem tok_empty_not_mem_processLine (jsonParse : String → Option EventData)
    (line : String) : CB.tok "" ∉ processLine jsonParse line := by
  unfold processLine
  split
  · cases hp : jsonParse (jsSlice 6 line) with
    | none => simp
    | some data =>
      intro hmem
      simp only [List.mem_append] at hmem
      rcases hmem with (h | h) | h
      · rcases hdt : data.token with _ | s
        · rw [hdt] at h
          simp [truthy] at h
        · rw [hdt] at h
          by_cases hs : s = ""
          · simp [truthy, hs] at h
          · simp only [truthy, hs, ne_eq, not_false_eq_true, decide_eq_true_eq,
              if_true, List.mem_singleton, Option.getD_some] at h
            exact hs (CB.tok.inj h).symm
      · split at h <;> simp at h
      · split at h <;> simp at h
  · simp

/-- C10: `sendMessage` never invokes `onToken` with the empty string — an
event whose `token` field is empty (or absent) is silently skipped by the
truthiness guard, and the non-ok and no-reader paths only invoke `onError`. -/
theorem c10_no_empty_token (jsonParse : String → Option EventData)
    (env : SendEnv) : CB.tok "" ∉ (sendMessage jsonParse env).1 := by
  intro hmem
  rw [sendMessage] at hmem
  split_ifs at hmem
  · simp at hmem
  · simp at hmem
  · simp at hmem
  · rw [processChunks] at hmem
    simp only [List.mem_flatten, List.mem_map] at hmem
    obtain ⟨l, ⟨chunk, hchunk, rfl⟩, hmem⟩ := hmem
    simp only [List.mem_flatten, List.mem_map] at hmem
    obtain ⟨l₂, ⟨line, hline, rfl⟩, hmem⟩ := hmem
    exact tok_empty_not_mem_processLine jsonParse line hmem

/-- C10 witness: the concrete error-then-token stream delivers no empty
token. -/
theorem c10_no_empty_token_witness :
    CB.tok "" ∉ (sendMessage jsonParse0 streamErrThenTok).1 :=
  c10_no_empty_token jsonParse0 streamErrThenTok

/-- C7 counterexample: with no stored token, `uploadDocument` and
`downloadDocument` still attach an Authorization header (the literal
`"Bearer null"`), while `request` attaches none; and on a first 401 with a
token present they issue no refresh call and no retry — they throw at once. -/
theorem c7_counterexample :
    (uploadDocument binEnvNoToken).authHeader = some "Bearer null" ∧
    (downloadDocument binEnvNoToken).authHeader = some "Bearer null" ∧
    requestAuthHeader none = none ∧
    (uploadDocument binEnv401).refreshCalls = 0 ∧
    (uploadDocument binEnv401).attempts = 1 ∧
    (uploadDocument binEnv401).outcome = .thrown "expired" ∧
    (downloadDocument binEnv401).refreshCalls = 0 ∧
    (downloadDocument binEnv401).attempts = 1 ∧
    (downloadDocument binEnv401).outcome = .thrown "expired" := by
  decide

/-- C7 (amended): the binary and multipart variants attach the Authorization
header unconditionally (from the template literal, `"Bearer null"` when no
token is stored), never issue a refresh call, fetch the endpoint exactly
once, and on a 401 throw immediately with the backend detail or their
generic fallback. -/
theorem c7_binary_contract (env : BinaryEnv) :
    (uploadDocument env).authHeader = some (bearerTemplate env.token) ∧
    (downloadDocument env).authHeader = some (bearerTemplate env.token) ∧
    (uploadDocument env).refreshCalls = 0 ∧
    (uploadDocument env).attempts = 1 ∧
    (downloadDocument env).refreshCalls = 0 ∧
    (downloadDocument env).attempts = 1 ∧
    (env.response.status = 401 →
      (uploadDocument env).outcome =
          .thrown (env.response.detail.getD "Failed to upload document") ∧
      (downloadDocument env).outcome =
          .thrown (env.response.detail.getD "Failed to download document")) := by
  unfold uploadDocument downloadDocument
  split_ifs with h
  · refine ⟨rfl, rfl, rfl, rfl, rfl, rfl, fun h401 => ?_⟩
    rw [h401] at h
    exact absurd h (by omega)
  · exact ⟨rfl, rfl, rfl, rfl, rfl, rfl, fun _ => ⟨rfl, rfl⟩⟩

/-- C7 witness: the amended contract evaluated on the concrete 401
environment. -/
theorem c7_binary_contract_witness :
    (uploadDocument binEnv401).authHeader =
        some (bearerTemplate binEnv401.token) ∧
    (uploadDocument binEnv401).outcome =
        .thrown (binEnv401.response.detail.getD "Failed to upload document") ∧
    (downloadDocument binEnv401).outcome =
        .thrown (binEnv401.response.detail.getD "Failed to download document") :=
  ⟨(c7_binary_contract binEnv401).1,
    ((c7_binary_contract binEnv401).2.2.2.2.2.2 rfl).1,
    ((c7_binary_contract binEnv401).2.2.2.2.2.2 rfl).2⟩

/-- C2: a request that receives 401, refreshes successfully, retries once
(marked as a retry) and receives 401 again fails by throwing the backend
detail (or the generic fallback) of the retry response: the endpoint is
fetched exactly twice (one retry), one refresh call is issued, and the
session is not purged — the cycle cannot recurse further. -/
theorem c2_bounded_retry (env : RequestEnv)
    (htok : env.token.isSome = true)
    (h0 : (env.responses 0).status = 401)
    (href : env.refreshOk = true)
    (h1 : (env.responses 1).status = 401) :
    requestRun env false =
      { outcome := .thrown (jsOr (env.responses 1).detail "An error occurred"),
        attempts := 2, refreshCalls := 1, purged := false } := by
  rw [requestRun]
  rw [dif_pos ⟨h0, rfl, htok⟩]
  rw [if_pos href]
  rw [requestRun]
  rw [dif_neg (by simp)]
  rw [if_pos (by simp only [Bool.cond_true, h1]; omega)]
  rfl

/-- C2 witness: the bounded retry evaluated on the environment whose
endpoint always answers 401 with detail `"expired"`. -/
theorem c2_bounded_retry_witness :
    requestRun req401Env false =
      { outcome := .thrown "expired", attempts := 2, refreshCalls := 1,
        purged := false } :=
  (c2_bounded_retry req401Env rfl rfl rfl rfl).trans (by rfl)

/-- Once `isSending` is false, folding further callbacks keeps it false:
`onToken` leaves the flag unchanged and the terminal callbacks set it to
false. -/
theorem isSending_foldCBs_of_false (u a : String) (cbs : List CB) :
    ∀ s : ChatState, s.isSending = false →
      (foldCBs u a s cbs).isSending = false := by
  induction cbs with
  | nil => intro s h; exact h
  | cons c rest ih =>
    intro s h
    simp only [foldCBs, List.foldl_cons]
    cases c with
    | tok t => exact ih _ (by simpa [applyCB] using h)
    | complete srcs uId aId conf => exact ih _ (by simp [applyCB])
    | err m => exact ih _ (by simp [applyCB])

/-- A terminal callback anywhere in the list forces the final `isSending`
to false. -/
theorem isSending_foldCBs_terminal (u a : String) (cbs : List CB) :
    ∀ s : ChatState, (∃ cb ∈ cbs, cb.isTerminal = true) →
      (foldCBs u a s cbs).isSending = false := by
  induction cbs with
  | nil =>
    intro s h
    rcases h with ⟨cb, hmem, _⟩
    simp at hmem
  | cons c rest ih =>
    intro s h
    simp only [foldCBs, List.foldl_cons]
    rcases h with ⟨cb, hmem, hterm⟩
    rcases List.mem_cons.mp hmem with rfl | hmem'
    · cases cb with
      | tok t => simp [CB.isTerminal] at hterm
      | complete srcs uId aId conf =>
        exact isSending_foldCBs_of_false u a rest _ (by simp [applyCB])
      | err m =>
        exact isSending_foldCBs_of_false u a rest _ (by simp [applyCB])
    · exact ih _ ⟨cb, hmem', hterm⟩

/-- C5 (amended): every path on which `sendMessage` delivers a terminal
callback (`onComplete` or `onError`) or rejects (caught by the page's
`catch`) ends with `isSending` false, so submission is re-enabled; the path
the counterexample exhibits — a reader that finishes without any terminal
event — is the one exception. -/
theorem c5_no_permanent_lock (jsonParse : String → Option EventData)
    (env : SendEnv) (prev : List LocalMessage) (content : String) (now : Nat)
    (h : (∃ cb ∈ (sendMessage jsonParse env).1, cb.isTerminal = true) ∨
         (sendMessage jsonParse env).2 = true) :
    (handleSendMessage jsonParse env prev content now).isSending = false := by
  simp only [handleSendMessage]
  rcases h with hterm | hthrew
  · split
    · rfl
    · exact isSending_foldCBs_terminal _ _ _ _ hterm
  · simp only [hthrew, if_true]

/-- C5 witness: a stream delivering a done event re-enables submission. -/
theorem c5_no_permanent_lock_witness :
    (handleSendMessage jsonParse0 streamDoneOnly [] "hello" 0).isSending =
      false :=
  c5_no_permanent_lock jsonParse0 streamDoneOnly [] "hello" 0
    (Or.inl ⟨CB.complete [] none none none, by decide, by decide⟩)

/-- C5 counterexample: a 2xx response whose stream ends without any terminal
event resolves `sendMessage` normally with no callback delivered, leaving
`isSending` true forever — the chat input stays locked on this path. -/
theorem c5_counterexample :
    sendMessage jsonParse0 streamNoTerminal = ([], false) ∧
    (handleSendMessage jsonParse0 streamNoTerminal [] "hello" 0).isSending =
      true := by
  decide

/-- The optimistic insert puts the user entry at index `prev.length`. -/
theorem initTurnState_user (prev : List LocalMessage) (content : String)
    (now : Nat) :
    (initTurnState prev content now).messages[prev.length]? =
      some { id := tempUserId now, role := "user", content := content,
             sources := none, isStreaming := false } := by
  rw [initTurnState]
  rw [List.getElem?_append_right (Nat.le_refl _)]
  simp

/-- The optimistic insert puts the assistant placeholder at index
`prev.length + 1`. -/
theorem initTurnState_assistant (prev : List LocalMessage) (content : String)
    (now : Nat) :
    (initTurnState prev content now).messages[prev.length + 1]? =
      some { id := tempAssistantId now, role := "assistant", content := "",
             sources := none, isStreaming := true } := by
  rw [initTurnState]
  rw [List.getElem?_append_right (by omega)]
  simp

/-- C3 counterexample: on a stream carrying an error event line and then a
token event line, `sendMessage` invokes `onError` and then still invokes
`onToken` (the read loop has no break after a terminal event), and the late
token is applied: the assistant entry ends with the apology text plus the
late token appended. -/
theorem c3_counterexample :
    (sendMessage jsonParse0 streamErrThenTok).1 =
      [CB.err "boom", CB.tok "late"] ∧
    (handleSendMessage jsonParse0 streamErrThenTok [] "q" 0).messages =
      [ { id := "temp-user-0", role := "user", content := "q",
          sources := none, isStreaming := false },
        { id := "temp-assistant-0", role := "assistant",
          content := "Sorry, an error occurred. Please try again.late",
          sources := none, isStreaming := false } ] := by
  decide

/-- C3 (amended): `sendMessage` keeps reading to the end of the stream —
the callbacks of later chunks are delivered after those of earlier chunks
regardless of any terminal event among them — and a token delivered after
`onError` is applied to the assistant entry: the error handler leaves the
temporary id in place, so the late token is appended to the apology content
while the entry is already marked not streaming. -/
theorem c3_no_terminal_cutoff (jsonParse : String → Option EventData)
    (env : SendEnv) (c₁ c₂ : List String) (prev : List LocalMessage)
    (content : String) (now : Nat) (m t : String)
    (hf : env.fetchThrows = false) (hok : env.responseOk = true)
    (hr : env.hasReader = true) :
    (sendMessage jsonParse { env with chunks := c₁ ++ c₂ }).1 =
      (sendMessage jsonParse { env with chunks := c₁ }).1 ++
        (sendMessage jsonParse { env with chunks := c₂ }).1 ∧
    entryContent (foldCBs (tempUserId now) (tempAssistantId now)
        (initTurnState prev content now) [CB.err m, CB.tok t])
        (prev.length + 1) =
      some ("Sorry, an error occurred. Please try again." ++ t) ∧
    entryStreaming (foldCBs (tempUserId now) (tempAssistantId now)
        (initTurnState prev content now) [CB.err m, CB.tok t])
        (prev.length + 1) = some false ∧
    entryId (foldCBs (tempUserId now) (tempAssistantId now)
        (initTurnState prev content now) [CB.err m, CB.tok t])
        (prev.length + 1) = some (tempAssistantId now) := by
  refine ⟨?_, ?_, ?_, ?_⟩
  · simp [sendMessage, hf, hok, hr, processChunks, List.flatten_append]
  · simp only [foldCBs, List.foldl_cons, List.foldl_nil, applyCB]
    simp [entryContent, onTokenUpdate, onErrorUpdate, List.getElem?_map,
      initTurnState_assistant prev content now]
  · simp only [foldCBs, List.foldl_cons, List.foldl_nil, applyCB]
    simp [entryStreaming, onTokenUpdate, onErrorUpdate, List.getElem?_map,
      initTurnState_assistant prev content now]
  · simp only [foldCBs, List.foldl_cons, List.foldl_nil, applyCB]
    simp [entryId, onTokenUpdate, onErrorUpdate, List.getElem?_map,
      initTurnState_assistant prev content now]

/-- C3 witness: the amended statement evaluated on the concrete stream. -/
theorem c3_no_terminal_cutoff_witness :
    (sendMessage jsonParse0
        { streamErrThenTok with chunks := ["data: x"] ++ ["data: y"] }).1 =
      (sendMessage jsonParse0
        { streamErrThenTok with chunks := ["data: x"] }).1 ++
        (sendMessage jsonParse0
          { streamErrThenTok with chunks := ["data: y"] }).1 ∧
    entryContent (foldCBs (tempUserId 0) (tempAssistantId 0)
        (initTurnState [] "q" 0) [CB.err "boom", CB.tok "late"])
        (List.length ([] : List LocalMessage) + 1) =
      some ("Sorry, an error occurred. Please try again." ++ "late") ∧
    entryStreaming (foldCBs (tempUserId 0) (tempAssistantId 0)
        (initTurnState [] "q" 0) [CB.err "boom", CB.tok "late"])
        (List.length ([] : List LocalMessage) + 1) = some false ∧
    entryId (foldCBs (tempUserId 0) (tempAssistantId 0)
        (initTurnState [] "q" 0) [CB.err "boom", CB.tok "late"])
        (List.length ([] : List LocalMessage) + 1) =
      some (tempAssistantId 0) :=
  c3_no_terminal_cutoff jsonParse0 streamErrThenTok ["data: x"] ["data: y"]
    [] "q" 0 "boom" "late" rfl rfl rfl

/-- A line that does not carry the event prefix, or whose payload fails to
parse, contributes no callback. -/
theorem processLine_eq_nil (jsonParse : String → Option EventData)
    (line : String)
    (h : jsStartsWith "data: " line = false ∨
         jsonParse (jsSlice 6 line) = none) :
    processLine jsonParse line = [] := by
  rcases h with h | h <;> simp [processLine, h]

/-- C4 counterexample: the event line `data: {"token": "hi"}` split across
two reads delivers nothing — the first fragment fails to parse and the
second lacks the prefix, and no buffer reassembles them — while the same
line arriving whole in one read delivers the token. -/
theorem c4_counterexample :
    (sendMessage jsonParse0 streamSplitLine).1 = [] ∧
    (sendMessage jsonParse0 streamWholeLine).1 = [CB.tok "hi"] := by
  decide

/-- C4 (amended): each chunk is split on newlines independently with no
carry-over between reads: if every prefixed line within each individual
chunk fails to parse (as both fragments of a split event line do), nothing
is delivered; and a malformed payload on a single complete line is dropped
silently while the lines before and after it are still processed. -/
theorem c4_per_chunk_split (jsonParse : String → Option EventData)
    (env : SendEnv) (ls₁ : List String) (lb : String) (ls₂ : List String)
    (c : String)
    (hf : env.fetchThrows = false) (hok : env.responseOk = true)
    (hr : env.hasReader = true)
    (hnone : ∀ chunk ∈ env.chunks, ∀ line ∈ jsSplitNewline chunk,
      jsStartsWith "data: " line = true → jsonParse (jsSlice 6 line) = none)
    (hsplit : jsSplitNewline c = ls₁ ++ lb :: ls₂)
    (hbadPre : jsStartsWith "data: " lb = true)
    (hbad : jsonParse (jsSlice 6 lb) = none) :
    (sendMessage jsonParse env).1 = [] ∧
    (sendMessage jsonParse { env with chunks := [c] }).1 =
      (ls₁.map (processLine jsonParse)).flatten ++
        (ls₂.map (processLine jsonParse)).flatten := by
  constructor
  · simp only [sendMessage, hf, hok, hr, Bool.not_true, Bool.false_eq_true,
      if_false, ite_false]
    rw [processChunks]
    rw [List.flatten_eq_nil_iff]
    intro l hl
    simp only [List.mem_map] at hl
    obtain ⟨chunk, hchunk, rfl⟩ := hl
    rw [List.flatten_eq_nil_iff]
    intro l₂ hl₂
    simp only [List.mem_map] at hl₂
    obtain ⟨line, hline, rfl⟩ := hl₂
    rcases hpre : jsStartsWith "data: " line with _ | _
    · exact processLine_eq_nil jsonParse line (Or.inl hpre)
    · exact processLine_eq_nil jsonParse line
        (Or.inr (hnone chunk hchunk line hline hpre))
  · simp only [sendMessage, hf, hok, hr, Bool.not_true, Bool.false_eq_true,
      if_false, ite_false]
    rw [processChunks]
    simp only [List.map_cons, List.map_nil, List.flatten_cons,
      List.flatten_nil, List.append_nil, hsplit, List.map_append,
      List.flatten_append]
    rw [processLine_eq_nil jsonParse lb (Or.inr hbad)]
    simp

/-- C4 witness: the amended statement evaluated on the split-line stream and
the chunk with a malformed middle line. -/
theorem c4_per_chunk_split_witness :
    (sendMessage jsonParse0 streamSplitLine).1 = [] ∧
    (sendMessage jsonParse0
        { streamSplitLine with chunks := [chunkWithBadLine] }).1 =
      (["data: \x7b\x22token\x22: \x22hi\x22\x7d"].map
          (processLine jsonParse0)).flatten ++
        (["data: \x7b\x22done\x22: true\x7d", ""].map
          (processLine jsonParse0)).flatten :=
  c4_per_chunk_split jsonParse0 streamSplitLine
    ["data: \x7b\x22token\x22: \x22hi\x22\x7d"] "data: \x7b\x22tok"
    ["data: \x7b\x22done\x22: true\x7d", ""] chunkWithBadLine
    rfl rfl rfl (by decide) (by decide) (by decide) (by decide)

/-- Folding a list of `onToken` callbacks appends the concatenation of the
tokens, in order, to the content of an entry whose id is the assistant
placeholder's, and never touches `isSending`. -/
theorem foldCBs_toks_assistant (u a : String) (toks : List String) :
    ∀ (s : ChatState) (i : Nat) (m : LocalMessage),
      s.messages[i]? = some m → m.id = a →
      (foldCBs u a s (toks.map CB.tok)).messages[i]? =
          some { m with content := m.content ++ concatTokens toks } ∧
      (foldCBs u a s (toks.map CB.tok)).isSending = s.isSending := by
  induction toks with
  | nil =>
    intro s i m hm _
    refine ⟨?_, rfl⟩
    simpa [foldCBs, concatTokens] using hm
  | cons t ts ih =>
    intro s i m hm hid
    simp only [List.map_cons, foldCBs, List.foldl_cons, applyCB]
    have hm' : (onTokenUpdate a t s.messages)[i]? =
        some { m with content := m.content ++ t } := by
      rw [onTokenUpdate, List.getElem?_map, hm]
      simp [hid]
    obtain ⟨h1, h2⟩ := ih { s with messages := onTokenUpdate a t s.messages }
      i { m with content := m.content ++ t } hm' hid
    refine ⟨?_, h2⟩
    rw [foldCBs] at h1
    rw [h1]
    simp [concatTokens, String.append_assoc]

/-- C8: with the turn's events being a sequence of token callbacks followed
by one completion, the assistant entry's final content is exactly the
in-order concatenation of the token texts with the sources stored and the
streaming flag cleared; and after any prefix of at most the token callbacks
(the intermediate observable states), the content is the concatenation of
the tokens delivered so far and the streaming flag is still true — it
becomes false only when the done callback is applied. -/
theorem c8_token_ordering (prev : List LocalMessage) (content : String)
    (now : Nat) (toks : List String) (srcs : List String)
    (uid aid : Option String) (conf : Option RagConfidence) (i : Nat)
    (hi : i ≤ toks.length) :
    entryContent (foldCBs (tempUserId now) (tempAssistantId now)
        (initTurnState prev content now)
        (toks.map CB.tok ++ [CB.complete srcs uid aid conf]))
        (prev.length + 1) = some (concatTokens toks) ∧
    entryStreaming (foldCBs (tempUserId now) (tempAssistantId now)
        (initTurnState prev content now)
        (toks.map CB.tok ++ [CB.complete srcs uid aid conf]))
        (prev.length + 1) = some false ∧
    entrySources (foldCBs (tempUserId now) (tempAssistantId now)
        (initTurnState prev content now)
        (toks.map CB.tok ++ [CB.complete srcs uid aid conf]))
        (prev.length + 1) = some (some srcs) ∧
    entryContent (foldCBs (tempUserId now) (tempAssistantId now)
        (initTurnState prev content now)
        ((toks.map CB.tok ++ [CB.complete srcs uid aid conf]).take i))
        (prev.length + 1) = some (concatTokens (toks.take i)) ∧
    entryStreaming (foldCBs (tempUserId now) (tempAssistantId now)
        (initTurnState prev content now)
        ((toks.map CB.tok ++ [CB.complete srcs uid aid conf]).take i))
        (prev.length + 1) = some true := by
  have hinit := initTurnState_assistant prev content now
  have hfold := foldCBs_toks_assistant (tempUserId now) (tempAssistantId now)
    toks (initTurnState prev content now) (prev.length + 1) _ hinit rfl
  have htake : (toks.map CB.tok ++ [CB.complete srcs uid aid conf]).take i =
      (toks.take i).map CB.tok := by
    rw [List.take_append_of_le_length (by simpa using hi)]
    exact (List.map_take ..).symm
  have hfoldtake := foldCBs_toks_assistant (tempUserId now)
    (tempAssistantId now) (toks.take i) (initTurnState prev content now)
    (prev.length + 1) _ hinit rfl
  have hsplitfold : foldCBs (tempUserId now) (tempAssistantId now)
      (initTurnState prev content now)
      (toks.map CB.tok ++ [CB.complete srcs uid aid conf]) =
      applyCB (tempUserId now) (tempAssistantId now)
        (foldCBs (tempUserId now) (tempAssistantId now)
          (initTurnState prev content now) (toks.map CB.tok))
        (CB.complete srcs uid aid conf) := by
    simp [foldCBs, List.foldl_append]
  have hcomp : (foldCBs (tempUserId now) (tempAssistantId now)
      (initTurnState prev content now)
      (toks.map CB.tok ++ [CB.complete srcs uid aid conf])).messages[prev.length + 1]? =
      some { id := jsOr aid (tempAssistantId now), role := "assistant",
             content := "" ++ concatTokens toks, sources := some srcs,
             isStreaming := false } := by
    rw [hsplitfold]
    simp only [applyCB]
    rw [onCompleteUpdate, List.getElem?_map, hfold.1]
    simp
  refine ⟨?_, ?_, ?_, ?_, ?_⟩
  · rw [entryContent, hcomp]
    simp
  · rw [entryStreaming, hcomp]
    simp
  · rw [entrySources, hcomp]
    simp
  · rw [entryContent, htake, hfoldtake.1]
    simp
  · rw [entryStreaming, htake, hfoldtake.1]
    simp

/-- C8 witness: the spec's scripted stream evaluated concretely. -/
theorem c8_token_ordering_witness :
    entryContent (foldCBs (tempUserId 0) (tempAssistantId 0)
        (initTurnState [] "Summarize X" 0)
        (["Hel", "lo", " world"].map CB.tok ++
          [CB.complete ["X.pdf"] (some "u9") (some "a9") none]))
        (List.length ([] : List LocalMessage) + 1) =
      some (concatTokens ["Hel", "lo", " world"]) ∧
    entryStreaming (foldCBs (tempUserId 0) (tempAssistantId 0)
        (initTurnState [] "Summarize X" 0)
        (["Hel", "lo", " world"].map CB.tok ++
          [CB.complete ["X.pdf"] (some "u9") (some "a9") none]))
        (List.length ([] : List LocalMessage) + 1) = some false ∧
    entrySources (foldCBs (tempUserId 0) (tempAssistantId 0)
        (initTurnState [] "Summarize X" 0)
        (["Hel", "lo", " world"].map CB.tok ++
          [CB.complete ["X.pdf"] (some "u9") (some "a9") none]))
        (List.length ([] : List LocalMessage) + 1) = some (some ["X.pdf"]) ∧
    entryContent (foldCBs (tempUserId 0) (tempAssistantId 0)
        (initTurnState [] "Summarize X" 0)
        ((["Hel", "lo", " world"].map CB.tok ++
          [CB.complete ["X.pdf"] (some "u9") (some "a9") none]).take 2))
        (List.length ([] : List LocalMessage) + 1) =
      some (concatTokens (["Hel", "lo", " world"].take 2)) ∧
    entryStreaming (foldCBs (tempUserId 0) (tempAssistantId 0)
        (initTurnState [] "Summarize X" 0)
        ((["Hel", "lo", " world"].map CB.tok ++
          [CB.complete ["X.pdf"] (some "u9") (some "a9") none]).take 2))
        (List.length ([] : List LocalMessage) + 1) = some true :=
  c8_token_ordering [] "Summarize X" 0 ["Hel", "lo", " world"] ["X.pdf"]
    (some "u9") (some "a9") none 2 (by decide)

/-- The two temporary ids of a turn are distinct (their prefixes have
different lengths). -/
theorem tempUserId_ne_tempAssistantId (now : Nat) :
    tempUserId now ≠ tempAssistantId now := by
  intro h
  have h2 := congrArg String.length h
  rw [tempUserId, tempAssistantId, String.length_append,
    String.length_append] at h2
  have e1 : ("temp-user-" : String).length = 10 := by decide
  have e2 : ("temp-assistant-" : String).length = 15 := by decide
  omega

/-- An `onToken` callback changes no entry's id. -/
theorem entryId_applyCB_tok (u a t : String) (s : ChatState) (i : Nat) :
    entryId (applyCB u a s (.tok t)) i = entryId s i := by
  simp only [applyCB, entryId, onTokenUpdate, List.getElem?_map]
  cases s.messages[i]? with
  | none => rfl
  | some m => by_cases h : m.id = a <;> simp [h]

/-- An `onError` callback changes no entry's id. -/
theorem entryId_applyCB_err (u a m : String) (s : ChatState) (i : Nat) :
    entryId (applyCB u a s (.err m)) i = entryId s i := by
  simp only [applyCB, entryId, onErrorUpdate, List.getElem?_map]
  cases s.messages[i]? with
  | none => rfl
  | some m' => by_cases h : m'.id = a <;> simp [h]

/-- The id rewriting performed by one `onComplete` update, as a function of
the entry's current id alone. -/
theorem entryId_applyCB_complete (u a : String) (srcs : List String)
    (uId aId : Option String) (conf : Option RagConfidence) (s : ChatState)
    (i : Nat) :
    entryId (applyCB u a s (.complete srcs uId aId conf)) i =
      (entryId s i).map (fun x =>
        if x = a then jsOr aId x
        else if x = u ∧ truthy uId then uId.getD x
        else x) := by
  simp only [applyCB, entryId, onCompleteUpdate, List.getElem?_map]
  cases s.messages[i]? with
  | none => rfl
  | some m =>
    by_cases h1 : m.id = a
    · simp [h1]
    · by_cases h2 : m.id = u ∧ truthy uId <;> simp [h1, h2] <;>
        split <;> rfl

/-- One step of the identifier-swap invariant: under the claim's condition
on completion callbacks, each callback takes a state whose turn entries are
both temporary or both swapped to a state of the same shape — the swap
happens to both entries in the same single update or to neither. -/
theorem swapInv_applyCB (p : Nat) (u a : String) (hua : u ≠ a)
    (s : ChatState) (cb : CB) (hgood : GoodComplete u a cb)
    (hinv : TempIds p u a s ∨ FreshIds p u a s) :
    TempIds p u a (applyCB u a s cb) ∨ FreshIds p u a (applyCB u a s cb) := by
  cases cb with
  | tok t =>
    simpa [TempIds, FreshIds, entryId_applyCB_tok] using hinv
  | err m =>
    simpa [TempIds, FreshIds, entryId_applyCB_err] using hinv
  | complete srcs uId aId conf =>
    obtain ⟨htu, hta, hu1, hu2, ha1, ha2⟩ := hgood
    rcases huid : uId with _ | v
    · rw [huid] at htu
      simp [truthy] at htu
    rcases haid : aId with _ | w
    · rw [haid] at hta
      simp [truthy] at hta
    rw [huid] at htu hu1 hu2
    rw [haid] at hta ha1 ha2
    simp only [Option.getD_some] at hu1 hu2 ha1 ha2
    have hv : v ≠ "" := by
      intro hv
      rw [hv] at htu
      simp [truthy] at htu
    have hw : w ≠ "" := by
      intro hw
      rw [hw] at hta
      simp [truthy] at hta
    rcases hinv with ⟨hp, hp1⟩ | ⟨⟨x, hx, hxu, hxa⟩, ⟨y, hy, hyu, hya⟩⟩
    · right
      constructor
      · refine ⟨v, ?_, hu1, hu2⟩
        rw [entryId_applyCB_complete, hp]
        simp [hua, huid, htu]
      · refine ⟨w, ?_, ha1, ha2⟩
        rw [entryId_applyCB_complete, hp1]
        simp [haid, jsOr, hw]
    · right
      constructor
      · refine ⟨x, ?_, hxu, hxa⟩
        rw [entryId_applyCB_complete, hx]
        simp [hxa, hxu]
      · refine ⟨y, ?_, hyu, hya⟩
        rw [entryId_applyCB_complete, hy]
        simp [hya, hyu]

/-- The identifier-swap invariant is preserved by folding any list of
callbacks satisfying the claim's condition. -/
theorem swapInv_foldCBs (p : Nat) (u a : String) (hua : u ≠ a)
    (cbs : List CB) :
    ∀ s : ChatState, (∀ cb ∈ cbs, GoodComplete u a cb) →
      (TempIds p u a s ∨ FreshIds p u a s) →
      TempIds p u a (foldCBs u a s cbs) ∨
        FreshIds p u a (foldCBs u a s cbs) := by
  induction cbs with
  | nil =>
    intro s _ hinv
    simpa [foldCBs] using hinv
  | cons c rest ih =>
    intro s hgood hinv
    simp only [foldCBs, List.foldl_cons]
    exact ih _ (fun cb h => hgood cb (List.mem_cons_of_mem _ h))
      (swapInv_applyCB p u a hua s c (hgood c (List.mem_cons_self _ _)) hinv)

/-- C6: provided every done callback of the turn carries both permanent ids
(fresh and nonempty), no observable state of the message list — the fold of
any prefix of the delivered callbacks over the optimistic insert — has one
turn entry swapped while the other still carries its temporary id; and a
single completion update applied to a state whose entries are both
temporary rewrites both ids to the permanent ones in that one update. -/
theorem c6_swap_atomicity (jsonParse : String → Option EventData)
    (env : SendEnv) (prev : List LocalMessage) (content : String)
    (now i : Nat) (s : ChatState) (srcs : List String) (uid aid : String)
    (conf : Option RagConfidence)
    (hgood : ∀ cb ∈ (sendMessage jsonParse env).1,
      GoodComplete (tempUserId now) (tempAssistantId now) cb)
    (huid : uid ≠ "") (haid : aid ≠ "")
    (hsu : entryId s prev.length = some (tempUserId now))
    (hsa : entryId s (prev.length + 1) = some (tempAssistantId now)) :
    (entryId (foldCBs (tempUserId now) (tempAssistantId now)
        (initTurnState prev content now)
        ((sendMessage jsonParse env).1.take i)) prev.length =
          some (tempUserId now) ↔
      entryId (foldCBs (tempUserId now) (tempAssistantId now)
        (initTurnState prev content now)
        ((sendMessage jsonParse env).1.take i)) (prev.length + 1) =
          some (tempAssistantId now)) ∧
    entryId (applyCB (tempUserId now) (tempAssistantId now) s
        (CB.complete srcs (some uid) (some aid) conf)) prev.length =
      some uid ∧
    entryId (applyCB (tempUserId now) (tempAssistantId now) s
        (CB.complete srcs (some uid) (some aid) conf)) (prev.length + 1) =
      some aid := by
  have hua := tempUserId_ne_tempAssistantId now
  refine ⟨?_, ?_, ?_⟩
  · have hinit : TempIds prev.length (tempUserId now) (tempAssistantId now)
        (initTurnState prev content now) := by
      constructor
      · rw [entryId, initTurnState_user]
        rfl
      · rw [entryId, initTurnState_assistant]
        rfl
    have hres := swapInv_foldCBs prev.length (tempUserId now)
      (tempAssistantId now) hua ((sendMessage jsonParse env).1.take i)
      (initTurnState prev content now)
      (fun cb h => hgood cb (List.mem_of_mem_take h)) (Or.inl hinit)
    rcases hres with ⟨hp, hp1⟩ | ⟨⟨x, hx, hxu, _⟩, ⟨y, hy, _, hya⟩⟩
    · exact ⟨fun _ => hp1, fun _ => hp⟩
    · constructor
      · intro h
        rw [hx] at h
        exact absurd (Option.some.inj h) hxu
      · intro h
        rw [hy] at h
        exact absurd (Option.some.inj h) hya
  · rw [entryId_applyCB_complete, hsu]
    simp [hua, truthy, huid]
  · rw [entryId_applyCB_complete, hsa]
    simp [jsOr, haid]

/-- C6 witness: the atomicity statement evaluated on the concrete stream
whose done event carries permanent ids `u1`/`a1`, with the single-update
swap evaluated at the freshly inserted turn state and ids `u9`/`a9`. -/
theorem c6_swap_atomicity_witness :
    (entryId (foldCBs (tempUserId 0) (tempAssistantId 0)
        (initTurnState [] "q" 0)
        ((sendMessage jsonParse0 streamDoneIds).1.take 1))
        (List.length ([] : List LocalMessage)) = some (tempUserId 0) ↔
      entryId (foldCBs (tempUserId 0) (tempAssistantId 0)
        (initTurnState [] "q" 0)
        ((sendMessage jsonParse0 streamDoneIds).1.take 1))
        (List.length ([] : List LocalMessage) + 1) =
          some (tempAssistantId 0)) ∧
    entryId (applyCB (tempUserId 0) (tempAssistantId 0)
        (initTurnState [] "q" 0)
        (CB.complete [] (some "u9") (some "a9") none))
        (List.length ([] : List LocalMessage)) = some "u9" ∧
    entryId (applyCB (tempUserId 0) (tempAssistantId 0)
        (initTurnState [] "q" 0)
        (CB.complete [] (some "u9") (some "a9") none))
        (List.length ([] : List LocalMessage) + 1) = some "a9" :=
  c6_swap_atomicity jsonParse0 streamDoneIds [] "q" 0 1
    (initTurnState [] "q" 0) [] "u9" "a9" none
    (by
      intro cb hmem
      rw [show (sendMessage jsonParse0 streamDoneIds).1 =
        [CB.complete [] (some "u1") (some "a1") none] from by decide] at hmem
      rw [List.mem_singleton] at hmem
      subst hmem
      exact ⟨rfl, rfl, by decide, by decide, by decide, by decide⟩)
    (by decide) (by decide) (by decide) (by decide)

/-- Running a concatenated schedule is running the two halves in order. -/
theorem runRefresh_append (l₁ l₂ : List RefreshEv) :
    ∀ s : RefreshSys, runRefresh s (l₁ ++ l₂) =
      match runRefresh s l₁ with
      | none => none
      | some s' => runRefresh s' l₂ := by
  induction l₁ with
  | nil => intro s; rfl
  | cons e rest ih =>
    intro s
    simp only [List.cons_append, runRefresh]
    cases refreshStep s e with
    | none => rfl
    | some s' => exact ih s'

/-- The first check-and-start slice from the initial state issues the one
refresh call and establishes the phase-1 invariant. -/
theorem observe_initRefresh (n i : Nat) (s' : RefreshSys)
    (hstep : refreshStep (initRefresh n) (.observe i) = some s') :
    RefreshPhase1 n s' := by
  simp only [refreshStep] at hstep
  cases hcall : (initRefresh n).callers[i]? with
  | none =>
    rw [hcall] at hstep
    simp at hstep
  | some c =>
    have hc : c = CallerPC.at401 :=
      List.eq_of_mem_replicate (List.getElem?_mem hcall)
    subst hc
    rw [hcall] at hstep
    simp only [initRefresh, Bool.false_eq_true, if_false,
      Option.some.injEq] at hstep
    subst hstep
    refine ⟨rfl, rfl, rfl, rfl, by simp, ?_⟩
    intro c hm
    rcases List.mem_or_eq_of_mem_set hm with h | h
    · exact Or.inl (List.eq_of_mem_replicate h)
    · exact Or.inr (by simpa using h)

/-- A later check-and-start slice, run while the refresh is outstanding,
joins the pending promise and issues no second call: the phase-1 invariant
is preserved. -/
theorem observe_phase1 (n i : Nat) (s s' : RefreshSys)
    (hinv : RefreshPhase1 n s)
    (hstep : refreshStep s (.observe i) = some s') :
    RefreshPhase1 n s' := by
  obtain ⟨hr, hp, hpr, hc, hl, hm⟩ := hinv
  simp only [refreshStep] at hstep
  cases hcall : s.callers[i]? with
  | none =>
    rw [hcall] at hstep
    simp at hstep
  | some c =>
    rw [hcall] at hstep
    cases c with
    | at401 =>
      rw [hr, hp] at hstep
      simp only [if_true, Option.some.injEq] at hstep
      subst hstep
      refine ⟨rfl, rfl, hpr, hc, by rw [List.length_set]; exact hl, ?_⟩
      intro c hmem
      rcases List.mem_or_eq_of_mem_set hmem with h | h
      · exact hm c h
      · exact Or.inr h
    | waiting p => simp at hstep
    | finished b => simp at hstep

/-- Any all-observe schedule preserves the phase-1 invariant. -/
theorem runRefresh_phase1 (n : Nat) (obs : List RefreshEv) :
    ∀ s s' : RefreshSys, RefreshPhase1 n s →
      (∀ e ∈ obs, e.isObserve = true) →
      runRefresh s obs = some s' → RefreshPhase1 n s' := by
  induction obs with
  | nil =>
    intro s s' hinv _ hrun
    simp only [runRefresh, Option.some.injEq] at hrun
    exact hrun ▸ hinv
  | cons e rest ih =>
    intro s s' hinv hobs hrun
    simp only [runRefresh] at hrun
    cases e with
    | observe i =>
      cases hstep : refreshStep s (.observe i) with
      | none =>
        rw [hstep] at hrun
        simp at hrun
      | some s₁ =>
        rw [hstep] at hrun
        exact ih s₁ s' (observe_phase1 n i s s₁ hinv hstep)
          (fun e h => hobs e (List.mem_cons_of_mem _ h)) hrun
    | settle p b =>
      have := hobs _ (List.mem_cons_self _ _)
      simp [RefreshEv.isObserve] at this
    | resume i =>
      have := hobs _ (List.mem_cons_self _ _)
      simp [RefreshEv.isObserve] at this

/-- One settle or resume step preserves the phase-2 invariant: settling
resolves the unique promise, and each resume makes its caller branch on the
settled shared outcome. -/
theorem phase2_step (n : Nat) (s s' : RefreshSys) (e : RefreshEv)
    (hinv : RefreshPhase2 n s) (he : e.isObserve = false)
    (hstep : refreshStep s e = some s') : RefreshPhase2 n s' := by
  obtain ⟨hc, hl, hcase⟩ := hinv
  cases e with
  | observe i => simp [RefreshEv.isObserve] at he
  | settle p b =>
    simp only [refreshStep] at hstep
    cases hpp : s.promises[p]? with
    | none =>
      rw [hpp] at hstep
      simp at hstep
    | some o =>
      cases o with
      | some b0 =>
        rw [hpp] at hstep
        simp at hstep
      | none =>
        rw [hpp] at hstep
        simp only [Option.some.injEq] at hstep
        rcases hcase with ⟨hprom, hmem⟩ | ⟨b0, hprom, hmem⟩
        · have hp0 : p = 0 := by
            rw [hprom] at hpp
            cases p with
            | zero => rfl
            | succ q => simp at hpp
          subst hp0
          subst hstep
          refine ⟨hc, hl, Or.inr ⟨b, ?_, ?_⟩⟩
          · rw [hprom]
            rfl
          · intro c hm
            rcases hmem c hm with h | h
            · exact Or.inl h
            · exact Or.inr (Or.inl h)
        · rw [hprom] at hpp
          cases p with
          | zero => simp at hpp
          | succ q => simp at hpp
  | resume i =>
    simp only [refreshStep] at hstep
    split at hstep
    · rename_i c p heq
      split at hstep
      · rename_i o b heq2
        simp only [Option.some.injEq] at hstep
        have hcmem : CallerPC.waiting p ∈ s.callers :=
          List.getElem?_mem heq
        rcases hcase with ⟨hprom, hmem⟩ | ⟨b1, hprom, hmem⟩
        · rw [hprom] at heq2
          cases p with
          | zero => simp at heq2
          | succ q => simp at heq2
        · have hp0 : p = 0 := by
            rcases hmem _ hcmem with h | h | h
            · simp at h
            · exact CallerPC.waiting.inj h
            · simp at h
          subst hp0
          rw [hprom] at heq2
          simp only [List.getElem?_cons_zero, Option.some.injEq] at heq2
          subst heq2
          subst hstep
          refine ⟨hc, by rw [List.length_set]; exact hl,
            Or.inr ⟨b1, hprom, ?_⟩⟩
          intro c hm
          rcases List.mem_or_eq_of_mem_set hm with h | h
          · exact hmem c h
          · exact Or.inr (Or.inr h)
      · exact absurd hstep (by simp)
    · exact absurd hstep (by simp)

/-- Any observe-free schedule preserves the phase-2 invariant. -/
theorem runRefresh_phase2 (n : Nat) (rest : List RefreshEv) :
    ∀ s s' : RefreshSys, RefreshPhase2 n s →
      (∀ e ∈ rest, e.isObserve = false) →
      runRefresh s rest = some s' → RefreshPhase2 n s' := by
  induction rest with
  | nil =>
    intro s s' hinv _ hrun
    simp only [runRefresh, Option.some.injEq] at hrun
    exact hrun ▸ hinv
  | cons e r ih =>
    intro s s' hinv hrest hrun
    simp only [runRefresh] at hrun
    cases hstep : refreshStep s e with
    | none =>
      rw [hstep] at hrun
      simp at hrun
    | some s₁ =>
      rw [hstep] at hrun
      exact ih s₁ s'
        (phase2_step n s s₁ e hinv (hrest _ (List.mem_cons_self _ _)) hstep)
        (fun e h => hrest e (List.mem_cons_of_mem _ h)) hrun

/-- From the initial state, no settle or resume step is enabled: an
observe-free schedule can only be empty. -/
theorem runRefresh_initRefresh_nonobs (n : Nat) (rest : List RefreshEv)
    (s : RefreshSys) (hrest : ∀ e ∈ rest, e.isObserve = false)
    (hrun : runRefresh (initRefresh n) rest = some s) :
    s = initRefresh n ∧ rest = [] := by
  cases rest with
  | nil =>
    simp only [runRefresh, Option.some.injEq] at hrun
    exact ⟨hrun.symm, rfl⟩
  | cons e r =>
    exfalso
    simp only [runRefresh] at hrun
    cases e with
    | observe i =>
      have := hrest _ (List.mem_cons_self _ _)
      simp [RefreshEv.isObserve] at this
    | settle p b =>
      have hpp : (initRefresh n).promises[p]? = none := by
        simp [initRefresh]
      simp only [refreshStep] at hrun
      rw [hpp] at hrun
      simp at hrun
    | resume i =>
      simp only [refreshStep] at hrun
      cases hcall : (initRefresh n).callers[i]? with
      | none =>
        rw [hcall] at hrun
        simp at hrun
      | some c =>
        have hc : c = CallerPC.at401 :=
          List.eq_of_mem_replicate (List.getElem?_mem hcall)
        subst hc
        rw [hcall] at hrun
        simp at hrun

/-- C1: for any schedule in which the N ≥ 2 callers all run their
check-and-start slice before the refresh outcome arrives (all observes
precede every settle/resume) and in which every caller finishes the block,
exactly one refresh network call is issued — one promise is ever created,
every later caller awaits it instead of starting a second call — and all N
callers branch on the same shared outcome: all retry, or all fail with the
session purged. -/
theorem c1_single_flight (n : Nat) (obs rest : List RefreshEv)
    (s : RefreshSys) (hn : 2 ≤ n)
    (hobs : ∀ e ∈ obs, e.isObserve = true)
    (hrest : ∀ e ∈ rest, e.isObserve = false)
    (hrun : runRefresh (initRefresh n) (obs ++ rest) = some s)
    (hfin : ∀ c ∈ s.callers, c.isFinished = true) :
    s.refreshCalls = 1 ∧ s.promises.length = 1 ∧
    ∃ b, ∀ c ∈ s.callers, c = CallerPC.finished b := by
  rw [runRefresh_append] at hrun
  cases hmid : runRefresh (initRefresh n) obs with
  | none =>
    rw [hmid] at hrun
    simp at hrun
  | some s₁ =>
    rw [hmid] at hrun
    have hphase2 : RefreshPhase2 n s := by
      cases obs with
      | nil =>
        simp only [runRefresh, Option.some.injEq] at hmid
        subst hmid
        obtain ⟨rfl, rfl⟩ :=
          runRefresh_initRefresh_nonobs n rest s hrest hrun
        exfalso
        have hmem : CallerPC.at401 ∈ (initRefresh n).callers := by
          simp only [initRefresh]
          exact List.mem_replicate.mpr ⟨by omega, rfl⟩
        have := hfin _ hmem
        simp [CallerPC.isFinished] at this
      | cons e₀ obs' =>
        simp only [runRefresh] at hmid
        cases hstep : refreshStep (initRefresh n) e₀ with
        | none =>
          rw [hstep] at hmid
          simp at hmid
        | some s₀ =>
          rw [hstep] at hmid
          have he₀ : e₀.isObserve = true := hobs _ (List.mem_cons_self _ _)
          have hph1 : RefreshPhase1 n s₁ := by
            cases e₀ with
            | observe i =>
              exact runRefresh_phase1 n obs' s₀ s₁
                (observe_initRefresh n i s₀ hstep)
                (fun e h => hobs e (List.mem_cons_of_mem _ h)) hmid
            | settle p b => simp [RefreshEv.isObserve] at he₀
            | resume i => simp [RefreshEv.isObserve] at he₀
          exact runRefresh_phase2 n rest s₁ s
            ⟨hph1.2.2.2.1, hph1.2.2.2.2.1, Or.inl ⟨hph1.2.2.1, hph1.2.2.2.2.2⟩⟩
            hrest hrun
    obtain ⟨hc, hl, hcase⟩ := hphase2
    rcases hcase with ⟨hprom, hmem⟩ | ⟨b, hprom, hmem⟩
    · exfalso
      have hne : s.callers ≠ [] := by
        intro h
        rw [h] at hl
        simp at hl
        omega
      obtain ⟨c, hcm⟩ := List.exists_mem_of_ne_nil _ hne
      have hf := hfin c hcm
      rcases hmem c hcm with h | h <;> rw [h] at hf <;>
        simp [CallerPC.isFinished] at hf
    · refine ⟨hc, by rw [hprom]; rfl, b, ?_⟩
      intro c hcm
      have hf := hfin c hcm
      rcases hmem c hcm with h | h | h
      · rw [h] at hf
        simp [CallerPC.isFinished] at hf
      · rw [h] at hf
        simp [CallerPC.isFinished] at hf
      · exact h

/-- C1 witness: two callers observe the 401, the single refresh settles
successfully, and both resume on the shared outcome. -/
theorem c1_single_flight_witness :
    refreshSysW.refreshCalls = 1 ∧ refreshSysW.promises.length = 1 ∧
    ∃ b, ∀ c ∈ refreshSysW.callers, c = CallerPC.finished b :=
  c1_single_flight 2 [.observe 0, .observe 1]
    [.settle 0 true, .resume 0, .resume 1] refreshSysW
    (by decide) (by decide) (by decide) (by decide) (by decide)

end Klyra
